import Mathlib

/-!
Shallow embedding of the graph assembly and navigation engine of the
Cultural DNA Map application (`app.js`), together with proofs of the
specified properties: graph referential integrity, the single-central
invariant, the tag normalization/filter pipeline, the Wikipedia taxonomy
fallback order, back-navigation re-derivation, node-click dispatch,
placeholder marking, node identity, the summary cache policy, and link
multiplicity.

External providers (iTunes search, Last.fm tags, Wikipedia category and
summary endpoints) are modelled as oracle functions passed to the embedded
code; a transport error, an application error, or a malformed payload is
modelled as the documented failure output (`[]` or `none`), exactly as the
adapters in `app.js` collapse those cases.
-/

/-! ## Definitions: the shallow embedding of app.js -/

/-- Embedding of JavaScript `toLowerCase` on a single character: ASCII
uppercase letters are shifted by 32, all other characters are unchanged. -/
def jsCharToLower (c : Char) : Char :=
  if 65 ≤ c.toNat ∧ c.toNat ≤ 90 then Char.ofNat (c.toNat + 32) else c

/-- Embedding of JavaScript `String.prototype.toLowerCase`. -/
def jsToLower (s : String) : String :=
  String.mk (s.data.map jsCharToLower)

/-- The whitespace characters relevant to JavaScript `trim` that can occur
in the data handled by `app.js`. -/
def isJsWhitespace (c : Char) : Bool :=
  c = ' ' || c = '\t' || c = '\n' || c = '\r'

/-- Trim a character list on both ends. -/
def trimList (l : List Char) : List Char :=
  ((l.dropWhile isJsWhitespace).reverse.dropWhile isJsWhitespace).reverse

/-- Embedding of JavaScript `String.prototype.trim`. -/
def jsTrim (s : String) : String :=
  String.mk (trimList s.data)

/-- Embedding of JavaScript `a.includes(b)`: `b` occurs contiguously in `a`. -/
def jsIncludes (a b : String) : Bool :=
  decide (b.data <:+: a.data)

/-- Embedding of `normalizeTagName` (app.js line 95): lower-case then trim. -/
def normalizeTagName (name : String) : String :=
  jsTrim (jsToLower name)

/-- The denylist of non-genre tags (app.js lines 31-93).  The JS `Set` is
modelled as a list queried with `contains`. -/
def LASTFM_BANNED_TAGS : List String :=
  ["seen live", "favorites", "favourites", "favourite", "love",
   "under 2000 listeners", "under 100 listeners",
   "american", "british", "uk", "usa", "united states", "chicago",
   "new york", "london", "los angeles", "oakland", "brooklyn", "atlanta",
   "austin", "nashville", "memphis", "seattle", "portland", "toronto",
   "vancouver", "sydney", "melbourne", "berlin", "paris", "tokyo",
   "moscow", "moscow metal",
   "70s", "80s", "90s", "2000s", "1970s", "1980s", "1990s", "2000s",
   "early 2000s",
   "male", "female", "male vocals", "female vocals", "instrumental",
   "remix", "cover", "live", "acoustic", "unplugged", "ost", "soundtrack",
   "anime", "video game", "game", "film"]

/-- Stable insertion into a count-descending list: an element coming later
in the source order is placed after every element with a count at least as
large, matching the stability of JavaScript `Array.prototype.sort`. -/
def insertByCountDesc (x : String × Nat) :
    List (String × Nat) → List (String × Nat)
  | [] => [x]
  | y :: ys => if y.2 < x.2 then x :: y :: ys else y :: insertByCountDesc x ys

/-- Stable sort by count descending, the embedding of
`.sort((a, b) => Number(b.count) - Number(a.count))`. -/
def sortByCountDesc : List (String × Nat) → List (String × Nat)
  | [] => []
  | x :: xs => insertByCountDesc x (sortByCountDesc xs)

/-- The common tag processing of `fetchArtistTopTags` (app.js lines
128-134) and `fetchTrackTopTags` (lines 171-177): sort the raw
`(name, count)` tags by count descending, keep the first `limit`,
normalize each name, drop empty results and denylisted tags. -/
def processTopTags (rawTags : List (String × Nat)) (limit : Nat) :
    List String :=
  (((sortByCountDesc rawTags).take limit).map
      (fun t => normalizeTagName t.1)).filter
    (fun tag => tag ≠ "" && !(LASTFM_BANNED_TAGS.contains tag))

/-- Embedding of `Array.from(new Set(list))`: deduplicate keeping the first
occurrence of each element, in order. -/
def uniqueInOrder (l : List String) : List String :=
  l.foldl (fun acc x => if x ∈ acc then acc else acc ++ [x]) []

/-- The iTunes track record fields that flow into graph construction
(`trackId`, `trackName`, `artistName`; the remaining iTunes fields only
feed the detail panel, which is rendered by an external surface). -/
structure Track where
  trackId : Option Nat
  trackName : String
  artistName : String
deriving DecidableEq

/-- The artist display name `track.artistName || "Unknown artist"` (app.js
lines 980 and 1212). -/
def artistOf (t : Track) : String :=
  if t.artistName = "" then "Unknown artist" else t.artistName

/-- The selection-path tag filter of `onITunesTrackSelected` (app.js lines
1032-1039): union the two fetched tag lists (first-occurrence dedup), then
drop any tag equal to, contained in, or containing the artist name. -/
def initialFilteredTags (artist : String) (artistTags trackTags : List String) :
    List String :=
  let combinedTags := uniqueInOrder (artistTags ++ trackTags)
  let artistName := normalizeTagName artist
  combinedTags.filter fun tag =>
    let normalized := normalizeTagName tag
    normalized ≠ artistName && !(jsIncludes artistName normalized) &&
      !(jsIncludes normalized artistName)

/-- The back-button tag filter (app.js lines 1217-1224): same union and
artist filter, with an additional non-empty and denylist check. -/
def backFilteredTags (artist : String) (artistTags trackTags : List String) :
    List String :=
  let combined := uniqueInOrder (artistTags ++ trackTags)
  let artistName := normalizeTagName artist
  combined.filter fun tag =>
    let n := normalizeTagName tag
    n ≠ "" && n ≠ artistName && !(jsIncludes artistName n) &&
      !(jsIncludes n artistName) && !(LASTFM_BANNED_TAGS.contains n)

/-- A graph node as constructed by the builders in app.js. -/
structure Node where
  id : String
  label : String
  type : String
  isCentral : Bool := false
  isContext : Bool := false
  isPlaceholder : Bool := false
  preserveTagColor : Bool := false
  trackData : Option Track := none
  fx : Option Nat := none
  fy : Option Nat := none
deriving DecidableEq

/-- A directed link; both endpoints are node ids. -/
structure Link where
  source : String
  target : String
deriving DecidableEq

/-- The triple handed to `renderGraph`. -/
structure Graph where
  nodes : List Node
  links : List Link
  title : String
deriving DecidableEq

/-- The per-build identity map of the `add` closures: the node list in
insertion order plus the set of ids already seen (the keys of the JS
`Map`). -/
structure BuildState where
  nodes : List Node
  seen : List String
deriving DecidableEq

/-- The `add` closure shared by both builders (app.js lines 1067-1073 and
1115-1121): adding a node whose id is already present is a no-op. -/
def addNode (st : BuildState) (n : Node) : BuildState :=
  if n.id ∈ st.seen then st else ⟨st.nodes ++ [n], st.seen ++ [n.id]⟩

/-- One step of a builder loop: add the node derived from the current item
and push the corresponding link unconditionally. -/
def buildStep (mkNode : String → Node) (mkLink : String → Link)
    (acc : BuildState × List Link) (t : String) : BuildState × List Link :=
  (addNode acc.1 (mkNode t), acc.2 ++ [mkLink t])

/-- The central track id
`` `TRACK:${track.trackId || track.trackName + ' - ' + (track.artistName||'')}` ``
(app.js lines 1075 and 1126); a `trackId` of `0` is falsy in JS. -/
def trackCentralId (t : Track) : String :=
  "TRACK:" ++
    match t.trackId with
    | some n => if n = 0 then t.trackName ++ " - " ++ t.artistName
                else toString n
    | none => t.trackName ++ " - " ++ t.artistName

/-- The central track node of the Track view (app.js lines 1078-1086),
pinned to the center of the 800x500 viewport. -/
def trackCentralNode (track : Track) : Node :=
  { id := trackCentralId track,
    label := track.trackName ++ " — " ++ track.artistName,
    type := "track", isCentral := true, trackData := some track,
    fx := some 400, fy := some 250 }

/-- A tag node of the Track view (app.js line 1093). -/
def tagNode (t : String) : Node :=
  { id := "TAG:" ++ t, label := t, type := "tag" }

/-- Embedding of `buildTrackGenreGraph(track, tags)` (app.js lines
1061-1101).  The JS `if (!track) return;` guard never fires for an actual
track record (objects are truthy), so the builder is total here.  The graph
is handed to `renderGraph` with the title built on line 1100. -/
def buildTrackGenreGraph (track : Track) (tags : List String) : Graph :=
  let centralId := trackCentralId track
  let st0 := addNode ⟨[], []⟩ (trackCentralNode track)
  let uniq := uniqueInOrder (tags.take 12)
  let res := uniq.foldl
    (buildStep tagNode (fun t => ⟨centralId, "TAG:" ++ t⟩)) (st0, [])
  { nodes := res.1.nodes, links := res.2,
    title := "Track: " ++ track.trackName ++ " — " ++ track.artistName }

/-- The context track node of the Genre-focus view (app.js lines
1128-1134). -/
def contextTrackNode (tr : Track) : Node :=
  { id := trackCentralId tr,
    label := tr.trackName ++ " — " ++ tr.artistName,
    type := "track", isContext := true, trackData := some tr }

/-- The central genre node (app.js lines 1141-1145). -/
def genreCentralNode (name : String) (preserveTagColor : Bool) : Node :=
  { id := "GENRE:" ++ name, label := name, type := "genre",
    isCentral := true, preserveTagColor := preserveTagColor }

/-- A subgenre node (app.js line 1157). -/
def subgenreNode (title : String) : Node :=
  { id := "SUBGENRE:" ++ title, label := title, type := "genre" }

/-- Embedding of `buildGenreFocusGraph(genreName, sourceTrack, options)`
(app.js lines 1107-1165).  The asynchronous Wikipedia fetch is passed in as
`subgenres` (its result); the empty-string guard of line 1108 yields
`none`. -/
def buildGenreFocusGraph (genreName : String) (sourceTrack : Option Track)
    (preserveTagColor : Bool) (subgenres : List String) : Option Graph :=
  if genreName = "" then none else
  let name := jsTrim genreName
  let start : BuildState × List Link :=
    match sourceTrack with
    | none => (⟨[], []⟩, [])
    | some tr =>
      (addNode ⟨[], []⟩ (contextTrackNode tr),
       [⟨trackCentralId tr, "GENRE:" ++ name⟩])
  let centralId := "GENRE:" ++ name
  let st2 := addNode start.1 (genreCentralNode name preserveTagColor)
  let res := subgenres.foldl
    (buildStep subgenreNode (fun t => ⟨centralId, "SUBGENRE:" ++ t⟩))
    (st2, start.2)
  let titleText :=
    match sourceTrack with
    | some tr => tr.trackName ++ " → " ++ name
    | none => "Genre: " ++ name
  some { nodes := res.1.nodes, links := res.2, title := titleText }

/-- The per-node attributes the render surface derives (app.js lines
589-590): the `data-id` and `data-placeholder` attributes. -/
def renderDatum (n : Node) : String × String :=
  (n.id, if n.isPlaceholder then "true" else "false")

/-- What `renderGraph` displays (app.js lines 527-547): with an empty node
list it shows the empty message and renders nothing; otherwise it renders
one circle per node. -/
def renderGraph (nodes : List Node) (titleText : String) :
    Option (String × List (String × String)) :=
  if nodes.isEmpty then none
  else some (titleText, nodes.map renderDatum)

/-- The curated alias table `GENRE_TO_WIKI_CATEGORY` (app.js lines
225-310), modelled as an association list looked up with `List.lookup`
(object keys are unique, so first-match lookup coincides with JS property
access). -/
def GENRE_TO_WIKI_CATEGORY_TABLE : List (String × String) :=
  [("hip hop", "Hip hop music genres"),
   ("hip-hop", "Hip hop music genres"),
   ("rap", "Hip hop music genres"),
   ("trap", "Hip hop music genres"),
   ("boom bap", "Hip hop music genres"),
   ("drill", "Hip hop music genres"),
   ("alternative hip hop", "Hip hop music genres"),
   ("electronic", "Electronic music genres"),
   ("house", "House music genres"),
   ("techno", "Techno"),
   ("trance", "Trance music"),
   ("drum and bass", "Drum and bass"),
   ("dubstep", "Dubstep"),
   ("uk garage", "Garage music"),
   ("ambient", "Ambient music"),
   ("rock", "Rock music genres"),
   ("alternative rock", "Alternative rock"),
   ("indie rock", "Indie rock"),
   ("punk rock", "Punk rock"),
   ("post-punk", "Post-punk"),
   ("metal", "Heavy metal music"),
   ("hardcore punk", "Hardcore punk"),
   ("pop", "Pop music genres"),
   ("synthpop", "Synthpop"),
   ("electropop", "Electropop"),
   ("indie pop", "Indie pop"),
   ("r&b", "Rhythm and blues music genres"),
   ("soul", "Soul music genres"),
   ("neo-soul", "Soul music genres"),
   ("funk", "Funk music"),
   ("jazz", "Jazz genres"),
   ("blues", "Blues genres"),
   ("bebop", "Bebop"),
   ("afrobeats", "Afrobeats"),
   ("reggae", "Reggae music"),
   ("dancehall", "Dancehall"),
   ("latin", "Latin music"),
   ("reggaeton", "Reggaeton"),
   ("salsa", "Salsa music"),
   ("bossa nova", "Bossa nova"),
   ("experimental", "Experimental music"),
   ("avant-garde", "Avant-garde music"),
   ("noise", "Noise music"),
   ("industrial", "Industrial music"),
   ("folk", "Folk music genres"),
   ("singer-songwriter", "Singer-songwriters"),
   ("americana", "Americana music"),
   ("classical", "Classical music genres"),
   ("contemporary classical", "Contemporary classical music"),
   ("film score", "Film score"),
   ("hyperpop", "Hyperpop"),
   ("bedroom pop", "Bedroom pop"),
   ("vaporwave", "Vaporwave"),
   ("grunge", "Grunge"),
   ("shoegaze", "Shoegaze"),
   ("emo", "Emo music"),
   ("gothic rock", "Gothic rock"),
   ("post-rock", "Post-rock"),
   ("chillout", "Chillhop"),
   ("lo-fi", "Lo-fi music"),
   ("world music", "World music")]

/-- Lookup `GENRE_TO_WIKI_CATEGORY[key]`, `none` when the key is absent. -/
def GENRE_TO_WIKI_CATEGORY (key : String) : Option String :=
  GENRE_TO_WIKI_CATEGORY_TABLE.lookup key

/-- The alias map `WIKI_ALIAS` (app.js lines 313-318). -/
def WIKI_ALIAS_TABLE : List (String × String) :=
  [("rap", "hip hop"),
   ("hip-hop", "hip hop"),
   ("r&b", "rhythm and blues"),
   ("edm", "electronic dance music")]

/-- Lookup `WIKI_ALIAS[normalized]`, `none` when the key is absent. -/
def WIKI_ALIAS (key : String) : Option String :=
  WIKI_ALIAS_TABLE.lookup key

/-- Embedding of JavaScript `String.prototype.replace` with a
global single-character pattern. -/
def jsReplaceAll (s : String) (pat : Char) (rep : String) : String :=
  String.mk (s.data.foldr
    (fun c acc => if c = pat then rep.data ++ acc else c :: acc) [])

/-- The candidate category titles of `fetchSubgenresFromWikipedia`
(app.js lines 322-338), before the `filter(Boolean)`: the curated alias
entry (possibly absent), the space/hyphen spelling variants, then the
generic suffix candidates. -/
def candidateVariations (genreName : String) : List (Option String) :=
  [GENRE_TO_WIKI_CATEGORY (normalizeTagName genreName)]
    ++ (if jsIncludes genreName " " then
          [some (jsReplaceAll genreName ' ' "-"),
           some (jsReplaceAll genreName ' ' "")]
        else [])
    ++ (if jsIncludes genreName "-" then
          [some (jsReplaceAll genreName '-' " "),
           some (jsReplaceAll genreName '-' "")]
        else [])
    ++ [some (genreName ++ " music genres"),
        some (genreName ++ " music"),
        some genreName,
        some (genreName ++ " genres")]

/-- The filter `variations.filter(Boolean)` (app.js line 340): drop absent entries and
empty strings. -/
def candidateKeys (genreName : String) : List String :=
  ((candidateVariations genreName).filterMap id).filter (· ≠ "")

/-- The fetch-until-non-empty loop of `fetchSubgenresFromWikipedia`
(app.js lines 340-366).  `lookup` is the category-members provider; a
transport error, a non-ok status, or a missing `query.categorymembers`
yields `[]`. -/
def tryCandidates (lookup : String → List String) :
    List String → List String
  | [] => []
  | k :: ks =>
    if lookup k = [] then tryCandidates lookup ks else lookup k

/-- Embedding of `fetchSubgenresFromWikipedia(genreName, limit)` (app.js
lines 320-370); the `cmlimit` request parameter is part of the provider
call and therefore of `lookup`. -/
def fetchSubgenresFromWikipedia (lookup : String → List String)
    (genreName : String) : List String :=
  if genreName = "" then []
  else tryCandidates lookup (candidateKeys genreName)

/-- The `{ title, extract, url }` payload cached by
`fetchGenreSummaryFromWikipedia` (app.js lines 209-213). -/
structure WikiSummary where
  title : String
  extract : String
  url : Option String
deriving DecidableEq

/-- The try-titles loop of `fetchGenreSummaryFromWikipedia` (app.js lines
203-219): on the first successful fetch the payload is cached under
`genreName` and returned; the third component records the titles queried
against the provider. -/
def trySummaryTitles (provider : String → Option WikiSummary)
    (cache : List (String × WikiSummary)) (genreName : String) :
    List String → Option WikiSummary × List (String × WikiSummary) × List String
  | [] => (none, cache, [])
  | t :: ts =>
    match provider t with
    | some payload => (some payload, (genreName, payload) :: cache, [t])
    | none =>
      let rest := trySummaryTitles provider cache genreName ts
      (rest.1, rest.2.1, t :: rest.2.2)

/-- Embedding of `fetchGenreSummaryFromWikipedia(genreName)` (app.js lines
193-222).  The session cache is threaded explicitly; the result is
`(returned value, cache afterwards, provider titles queried)`. -/
def fetchGenreSummaryFromWikipedia (provider : String → Option WikiSummary)
    (cache : List (String × WikiSummary)) (genreName : String) :
    Option WikiSummary × List (String × WikiSummary) × List String :=
  if genreName = "" then (none, cache, [])
  else
    match cache.lookup genreName with
    | some payload => (some payload, cache, [])
    | none =>
      let normalized := normalizeTagName genreName
      let aliasedName := (WIKI_ALIAS normalized).getD genreName
      let tryTitles := [aliasedName ++ " music", aliasedName]
      trySummaryTitles provider cache genreName tryTitles

/-- The action taken by `onNodeClick` (app.js lines 663-732), by node
type: a track node re-shows and rebuilds the track view, a tag node
focuses the tag with the current track as context and the preserve-color
flag set, a genre node focuses the genre with no context and the flag
unset, anything else falls back to a summary panel. -/
inductive ClickAction where
  | showTrack (trackData : Option Track)
  | focusGenre (name : String) (context : Option Track)
      (preserveTagColor : Bool)
  | fallbackInfo (label : String)
deriving DecidableEq

/-- The dispatch of `onNodeClick` on its `node.type` checks (app.js lines
668, 703, 710). -/
def onNodeClickAction (node : Node) (currentTrack : Option Track) :
    ClickAction :=
  if node.type = "track" then .showTrack node.trackData
  else if node.type = "tag" then .focusGenre node.label currentTrack true
  else if node.type = "genre" ∨ (node.id ≠ "" ∧ node.id.startsWith "GENRE:")
    then .focusGenre node.label none false
  else .fallbackInfo (if node.label = "" then node.id else node.label)

/-- The module-level navigation state of app.js (lines 11-12) plus the
detail panel and the graph handed to the render surface. -/
structure AppState where
  currentTrack : Option Track
  currentTrackHTML : Option String
  infoContent : String
  graph : Option Graph
deriving DecidableEq

/-- Embedding of `onITunesTrackSelected(track)` (app.js lines 967-1054) on
the navigation state: store the track, render and snapshot the detail
panel (`render` is the external panel template), fetch both tag lists,
filter them, and build the track graph.  `rawArtistTags`/`rawTrackTags`
are the Last.fm responses. -/
def onITunesTrackSelected (render : Track → String) (_s : AppState)
    (track : Track) (rawArtistTags rawTrackTags : List (String × Nat)) :
    AppState :=
  let artist := artistOf track
  let artistTags := processTopTags rawArtistTags 12
  let trackTags := processTopTags rawTrackTags 12
  let filteredTags := initialFilteredTags artist artistTags trackTags
  let html := render track
  { currentTrack := some track, currentTrackHTML := some html,
    infoContent := html,
    graph := some (buildTrackGenreGraph track filteredTags) }

/-- A genre-focus step as triggered from a node or chip click: swap the
graph for the focus build and the panel for the Wikipedia summary panel
(`wikiPanelHTML`); `currentTrack` and the snapshot are untouched (app.js
lines 1107-1202 write neither). -/
def focusGenreEvent (s : AppState) (genreName : String)
    (context : Option Track) (preserveTagColor : Bool)
    (subgenres : List String) (wikiPanelHTML : String) : AppState :=
  { s with graph := buildGenreFocusGraph genreName context preserveTagColor
                      subgenres,
           infoContent := wikiPanelHTML }

/-- The back-button handler wired in `buildGenreFocusGraph` (app.js lines
1204-1235): restore the snapshotted panel, then re-fetch, re-filter and
rebuild the track graph for `currentTrack`. -/
def clickBack (s : AppState)
    (rawArtistTags rawTrackTags : List (String × Nat)) : AppState :=
  match s.currentTrackHTML with
  | none => s
  | some html =>
    match s.currentTrack with
    | none => { s with infoContent := html }
    | some tr =>
      let artist := artistOf tr
      let filtered := backFilteredTags artist
        (processTopTags rawArtistTags 12) (processTopTags rawTrackTags 12)
      { s with infoContent := html,
               graph := some (buildTrackGenreGraph tr filtered) }

/-- No link of a graph dangles: both endpoints name nodes of the graph. -/
def noDanglingLinks (g : Graph) : Prop :=
  ∀ l ∈ g.links,
    (∃ n ∈ g.nodes, n.id = l.source) ∧ (∃ n ∈ g.nodes, n.id = l.target)

/-- A sample iTunes track record used by the witnesses. -/
def sampleTrack : Track :=
  { trackId := some 42, trackName := "Shutdown", artistName := "Skepta" }

/-- A sample Genre-focus graph with context track and duplicate resolver
output, used by the witnesses. -/
def sampleGenreGraph : Graph :=
  (buildGenreFocusGraph "grime" (some sampleTrack) true
      ["uk drill", "grime", "uk drill"]).getD ⟨[], [], ""⟩

/-- A sample category-members provider for the C4 witness: only the
curated hip-hop category is non-empty. -/
def sampleSubgenreLookup (k : String) : List String :=
  if k = "Hip hop music genres" then ["Trap music", "Drill music"] else []

/-- A sample genre node as built by a Genre-focus view. -/
def sampleGenreNode : Node :=
  { id := "GENRE:jazz", label := "jazz", type := "genre", isCentral := true }

/-- A provider with no summary pages, for the C9 witness. -/
def failingProvider : String → Option WikiSummary := fun _ => none

/-- A sample cached summary payload. -/
def sampleSummary : WikiSummary :=
  { title := "Jazz", extract := "A music genre.",
    url := some "https://en.wikipedia.org/wiki/Jazz" }

/-! ## Lemmas, claim theorems, witnesses and counterexamples -/

/-- Evaluating `Char.ofNat` at a valid codepoint round-trips through `toNat`. -/
theorem toNat_ofNat_of_valid (n : Nat) (h : n.isValidChar) :
    (Char.ofNat n).toNat = n := by
  rw [Char.ofNat, dif_pos h]; rfl

/-- ASCII lowercase shifts land below the surrogate range. -/
theorem isValidChar_of_le (n : Nat) (h : n ≤ 122) : n.isValidChar :=
  Or.inl (by omega)

/-- Lowercasing a character twice is the same as lowercasing it once. -/
theorem jsCharToLower_idem (c : Char) :
    jsCharToLower (jsCharToLower c) = jsCharToLower c := by
  unfold jsCharToLower
  by_cases h : 65 ≤ c.toNat ∧ c.toNat ≤ 90
  · rw [if_pos h]
    have hv : (c.toNat + 32).isValidChar := isValidChar_of_le _ (by omega)
    have ht : (Char.ofNat (c.toNat + 32)).toNat = c.toNat + 32 :=
      toNat_ofNat_of_valid _ hv
    rw [if_neg]
    rw [ht]
    omega
  · rw [if_neg h, if_neg h]

/-- A character whose codepoint is none of 32, 9, 10, 13 is not
`isJsWhitespace`. -/
theorem isJsWhitespace_eq_false (d : Char) (h32 : d.toNat ≠ 32) (h9 : d.toNat ≠ 9)
    (h10 : d.toNat ≠ 10) (h13 : d.toNat ≠ 13) : isJsWhitespace d = false := by
  unfold isJsWhitespace
  simp only [Bool.or_eq_false_iff, decide_eq_false_iff_not]
  refine ⟨⟨⟨?_, ?_⟩, ?_⟩, ?_⟩ <;>
    · intro he; subst he; simp_all [Char.toNat]

/-- Lowercasing neither creates nor destroys whitespace. -/
theorem isJsWhitespace_jsCharToLower (c : Char) :
    isJsWhitespace (jsCharToLower c) = isJsWhitespace c := by
  unfold jsCharToLower
  by_cases h : 65 ≤ c.toNat ∧ c.toNat ≤ 90
  · rw [if_pos h]
    have hv : (c.toNat + 32).isValidChar := isValidChar_of_le _ (by omega)
    have ht : (Char.ofNat (c.toNat + 32)).toNat = c.toNat + 32 :=
      toNat_ofNat_of_valid _ hv
    have h1 : isJsWhitespace (Char.ofNat (c.toNat + 32)) = false :=
      isJsWhitespace_eq_false _ (by omega) (by omega) (by omega) (by omega)
    have h2 : isJsWhitespace c = false :=
      isJsWhitespace_eq_false _ (by omega) (by omega) (by omega) (by omega)
    rw [h1, h2]
  · rw [if_neg h]

/-- If `dropWhile` returns a cons, its head fails the predicate. -/
theorem dropWhile_head_false {p : α → Bool} {l : List α} {a : α} {t : List α}
    (h : l.dropWhile p = a :: t) : p a = false := by
  have h2 := List.head?_dropWhile_not p l
  rw [h] at h2
  simpa using h2

/-- Dropping a prefix twice is the same as dropping it once. -/
theorem dropWhile_idem (p : α → Bool) (l : List α) :
    (l.dropWhile p).dropWhile p = l.dropWhile p := by
  cases h : l.dropWhile p with
  | nil => rfl
  | cons a t => rw [List.dropWhile_cons_of_neg]; simp [dropWhile_head_false h]

/-- A prefix of a list whose head survives `dropWhile` also survives it. -/
theorem dropWhile_eq_self_of_front {p : α → Bool} {A r s : List α}
    (hA : A.dropWhile p = A) (hpre : A = r ++ s) : r.dropWhile p = r := by
  cases r with
  | nil => rfl
  | cons a t =>
    have hfalse : p a = false := by
      refine dropWhile_head_false (l := A) (t := t ++ s) ?_
      rw [hA, hpre]; rfl
    rw [List.dropWhile_cons_of_neg (by simp [hfalse])]

/-- Trimming twice is the same as trimming once. -/
theorem trimList_idem (l : List Char) : trimList (trimList l) = trimList l := by
  unfold trimList
  have hstep1 :
      ((l.dropWhile isJsWhitespace).reverse.dropWhile
          isJsWhitespace).reverse.dropWhile isJsWhitespace
        = ((l.dropWhile isJsWhitespace).reverse.dropWhile
            isJsWhitespace).reverse := by
    obtain ⟨s, hs⟩ :=
      List.dropWhile_suffix (l := (l.dropWhile isJsWhitespace).reverse)
        isJsWhitespace
    refine dropWhile_eq_self_of_front (dropWhile_idem isJsWhitespace l)
      (s := s.reverse) ?_
    have h3 := congrArg List.reverse hs
    simpa using h3.symm
  rw [hstep1, List.reverse_reverse, dropWhile_idem]

/-- Trimming commutes with mapping `jsCharToLower`. -/
theorem trimList_map_jsCharToLower (l : List Char) :
    trimList (l.map jsCharToLower) = (trimList l).map jsCharToLower := by
  unfold trimList
  have hcomp : (isJsWhitespace ∘ jsCharToLower) = isJsWhitespace := by
    funext c; exact isJsWhitespace_jsCharToLower c
  rw [List.dropWhile_map, hcomp, ← List.map_reverse, List.dropWhile_map, hcomp,
    ← List.map_reverse]

/-- List-level statement of normalization idempotence. -/
theorem normalize_data_idem (m : List Char) :
    trimList (List.map jsCharToLower (trimList (List.map jsCharToLower m)))
      = trimList (List.map jsCharToLower m) := by
  have hidem : List.map jsCharToLower (List.map jsCharToLower m)
      = List.map jsCharToLower m := by
    rw [List.map_map]
    apply List.map_congr_left
    intro c _
    exact jsCharToLower_idem c
  rw [← trimList_map_jsCharToLower, hidem, trimList_idem]

/-- Normalization is idempotent: re-normalizing an already normalized
tag does not change it (the two filter sites in app.js rely on this). -/
theorem normalizeTagName_idem (s : String) :
    normalizeTagName (normalizeTagName s) = normalizeTagName s :=
  congrArg String.mk (normalize_data_idem s.data)

example : normalizeTagName "  Seen LIVE " = "seen live" := by decide

example : processTopTags [("Trap", 50), ("UK", 30)] 15 = ["trap"] := by decide

example : initialFilteredTags "Skepta" ["trap", "skepta"] [] = ["trap"] := by
  decide

example :
    buildGenreFocusGraph "jazz" none false []
      = some { nodes := [genreCentralNode "jazz" false], links := [],
               title := "Genre: jazz" } := by decide

/-- Adding a node keeps the seen-id set equal to the ids of the node list. -/
theorem addNode_seen_eq_map {st : BuildState} (n : Node)
    (h : st.seen = st.nodes.map (·.id)) :
    (addNode st n).seen = (addNode st n).nodes.map (·.id) := by
  unfold addNode
  by_cases hmem : n.id ∈ st.seen
  · rw [if_pos hmem]; exact h
  · rw [if_neg hmem]; simp [h]

/-- After `addNode st n`, the id of `n` is seen. -/
theorem mem_addNode_seen (st : BuildState) (n : Node) :
    n.id ∈ (addNode st n).seen := by
  unfold addNode
  by_cases hmem : n.id ∈ st.seen
  · rw [if_pos hmem]; exact hmem
  · rw [if_neg hmem]; simp

/-- Adding a node only grows the seen set. -/
theorem addNode_seen_mono {x : String} (st : BuildState) (n : Node)
    (h : x ∈ st.seen) : x ∈ (addNode st n).seen := by
  unfold addNode
  by_cases hmem : n.id ∈ st.seen
  · rw [if_pos hmem]; exact h
  · rw [if_neg hmem]; simp [h]

/-- Membership in the seen set after an `addNode`. -/
theorem mem_addNode_seen_iff {x : String} (st : BuildState) (n : Node) :
    x ∈ (addNode st n).seen ↔ x ∈ st.seen ∨ x = n.id := by
  unfold addNode
  by_cases hmem : n.id ∈ st.seen
  · rw [if_pos hmem]
    constructor
    · exact Or.inl
    · rintro (h | rfl)
      · exact h
      · exact hmem
  · rw [if_neg hmem]; simp

/-- The dedup of `addNode` keeps the seen set duplicate-free. -/
theorem addNode_seen_nodup (st : BuildState) (n : Node)
    (h : st.seen.Nodup) : (addNode st n).seen.Nodup := by
  unfold addNode
  by_cases hmem : n.id ∈ st.seen
  · rw [if_pos hmem]; exact h
  · rw [if_neg hmem]
    simpa [List.nodup_append] using ⟨h, hmem⟩

/-- Any node present after `addNode` was present before or is the argument. -/
theorem mem_addNode_nodes {m : Node} (st : BuildState) (n : Node)
    (h : m ∈ (addNode st n).nodes) : m ∈ st.nodes ∨ m = n := by
  unfold addNode at h
  by_cases hmem : n.id ∈ st.seen
  · rw [if_pos hmem] at h; exact Or.inl h
  · rw [if_neg hmem] at h
    simpa using h

/-- Adding a non-central node does not change the central nodes. -/
theorem addNode_filter_central (st : BuildState) (n : Node)
    (h : n.isCentral = false) :
    (addNode st n).nodes.filter (·.isCentral)
      = st.nodes.filter (·.isCentral) := by
  unfold addNode
  by_cases hmem : n.id ∈ st.seen
  · rw [if_pos hmem]
  · rw [if_neg hmem]
    simp [List.filter_append, h]

/-- The link component of a builder loop is the image of the processed
items, appended in order, independent of deduplication. -/
theorem foldl_buildStep_links (mkNode : String → Node)
    (mkLink : String → Link) (ts : List String)
    (acc : BuildState × List Link) :
    (ts.foldl (buildStep mkNode mkLink) acc).2 = acc.2 ++ ts.map mkLink := by
  induction ts generalizing acc with
  | nil => simp
  | cons t ts ih =>
    rw [List.foldl_cons, ih]
    simp [buildStep]

/-- The seen-ids invariant is preserved by a builder loop. -/
theorem foldl_buildStep_seen_eq_map (mkNode : String → Node)
    (mkLink : String → Link) (ts : List String)
    (acc : BuildState × List Link)
    (h : acc.1.seen = acc.1.nodes.map (·.id)) :
    (ts.foldl (buildStep mkNode mkLink) acc).1.seen
      = (ts.foldl (buildStep mkNode mkLink) acc).1.nodes.map (·.id) := by
  induction ts generalizing acc with
  | nil => exact h
  | cons t ts ih =>
    rw [List.foldl_cons]
    exact ih _ (addNode_seen_eq_map _ h)

/-- Seen ids after a builder loop: the old ones plus one per item. -/
theorem foldl_buildStep_seen_iff (mkNode : String → Node)
    (mkLink : String → Link) (ts : List String)
    (acc : BuildState × List Link) (x : String) :
    x ∈ (ts.foldl (buildStep mkNode mkLink) acc).1.seen
      ↔ x ∈ acc.1.seen ∨ ∃ t ∈ ts, x = (mkNode t).id := by
  induction ts generalizing acc with
  | nil => simp
  | cons t ts ih =>
    rw [List.foldl_cons]
    rw [ih]
    show x ∈ (addNode acc.1 (mkNode t)).seen ∨ _ ↔ _
    rw [mem_addNode_seen_iff]
    constructor
    · rintro ((h | h) | ⟨u, hu, rfl⟩)
      · exact Or.inl h
      · exact Or.inr ⟨t, by simp, h⟩
      · exact Or.inr ⟨u, by simp [hu], rfl⟩
    · rintro (h | ⟨u, hu, rfl⟩)
      · exact Or.inl (Or.inl h)
      · rcases List.mem_cons.mp hu with rfl | hu
        · exact Or.inl (Or.inr rfl)
        · exact Or.inr ⟨u, hu, rfl⟩

/-- A builder loop keeps the seen set duplicate-free. -/
theorem foldl_buildStep_seen_nodup (mkNode : String → Node)
    (mkLink : String → Link) (ts : List String)
    (acc : BuildState × List Link) (h : acc.1.seen.Nodup) :
    (ts.foldl (buildStep mkNode mkLink) acc).1.seen.Nodup := by
  induction ts generalizing acc with
  | nil => exact h
  | cons t ts ih =>
    rw [List.foldl_cons]
    exact ih _ (addNode_seen_nodup _ _ h)

/-- Nodes present after a builder loop were present before or are images
of processed items. -/
theorem foldl_buildStep_mem_nodes (mkNode : String → Node)
    (mkLink : String → Link) (ts : List String)
    (acc : BuildState × List Link) (m : Node)
    (h : m ∈ (ts.foldl (buildStep mkNode mkLink) acc).1.nodes) :
    m ∈ acc.1.nodes ∨ ∃ t ∈ ts, m = mkNode t := by
  induction ts generalizing acc with
  | nil => exact Or.inl h
  | cons t ts ih =>
    rw [List.foldl_cons] at h
    rcases ih _ h with h2 | ⟨u, hu, rfl⟩
    · rcases mem_addNode_nodes _ _ h2 with h3 | rfl
      · exact Or.inl h3
      · exact Or.inr ⟨t, by simp, rfl⟩
    · exact Or.inr ⟨u, by simp [hu], rfl⟩

/-- A loop that only adds non-central nodes does not change the central
nodes. -/
theorem foldl_buildStep_filter_central (mkNode : String → Node)
    (mkLink : String → Link) (ts : List String)
    (acc : BuildState × List Link)
    (h : ∀ t, (mkNode t).isCentral = false) :
    (ts.foldl (buildStep mkNode mkLink) acc).1.nodes.filter (·.isCentral)
      = acc.1.nodes.filter (·.isCentral) := by
  induction ts generalizing acc with
  | nil => rfl
  | cons t ts ih =>
    rw [List.foldl_cons, ih]
    exact addNode_filter_central _ _ (h t)

/-- Elements of `uniqueInOrder l` come from `l`. -/
theorem uniqueInOrder_subset (l : List String) : uniqueInOrder l ⊆ l := by
  unfold uniqueInOrder
  suffices h : ∀ (acc : List String) (x : String),
      x ∈ l.foldl (fun acc x => if x ∈ acc then acc else acc ++ [x]) acc →
        x ∈ acc ∨ x ∈ l by
    intro x hx
    rcases h [] x hx with h2 | h2
    · cases h2
    · exact h2
  induction l with
  | nil => intro acc x hx; exact Or.inl hx
  | cons a t ih =>
    intro acc x hx
    rw [List.foldl_cons] at hx
    rcases ih _ x hx with h2 | h2
    · by_cases ha : a ∈ acc
      · rw [if_pos ha] at h2; exact Or.inl h2
      · rw [if_neg ha] at h2
        rcases List.mem_append.mp h2 with h3 | h3
        · exact Or.inl h3
        · simp at h3
          subst h3
          exact Or.inr (by simp)
    · exact Or.inr (by simp [h2])

/-- Deduplication produces a duplicate-free list. -/
theorem uniqueInOrder_nodup (l : List String) : (uniqueInOrder l).Nodup := by
  unfold uniqueInOrder
  suffices h : ∀ acc : List String, acc.Nodup →
      (l.foldl (fun acc x => if x ∈ acc then acc else acc ++ [x]) acc).Nodup by
    exact h [] (by simp)
  induction l with
  | nil => intro acc hacc; exact hacc
  | cons a t ih =>
    intro acc hacc
    rw [List.foldl_cons]
    apply ih
    by_cases ha : a ∈ acc
    · rw [if_pos ha]; exact hacc
    · rw [if_neg ha]
      simpa [List.nodup_append] using ⟨hacc, ha⟩

/-- Appending to the same prefix is injective. -/
theorem string_append_right_inj (p : String) {a b : String}
    (h : p ++ a = p ++ b) : a = b := by
  have h2 : p.data ++ a.data = p.data ++ b.data := by
    have := congrArg String.data h
    simpa using this
  have h3 : a.data = b.data := List.append_cancel_left h2
  cases a; cases b; exact congrArg String.mk h3

/-- A `GENRE:` id is never a `TRACK:` id. -/
theorem genre_id_ne_track_id (a b : String) :
    "GENRE:" ++ a ≠ "TRACK:" ++ b := by
  intro h
  have h2 : ("GENRE:" ++ a).data = ("TRACK:" ++ b).data :=
    congrArg String.data h
  have h3 : ['G', 'E', 'N', 'R', 'E', ':'] ++ a.data
      = ['T', 'R', 'A', 'C', 'K', ':'] ++ b.data := h2
  simp at h3

/-- A `SUBGENRE:` id is never a `GENRE:` id. -/
theorem subgenre_id_ne_genre_id (a b : String) :
    "SUBGENRE:" ++ a ≠ "GENRE:" ++ b := by
  intro h
  have h2 : ("SUBGENRE:" ++ a).data = ("GENRE:" ++ b).data :=
    congrArg String.data h
  have h3 : ['S', 'U', 'B', 'G', 'E', 'N', 'R', 'E', ':'] ++ a.data
      = ['G', 'E', 'N', 'R', 'E', ':'] ++ b.data := h2
  simp at h3

/-- A `SUBGENRE:` id is never a `TRACK:` id. -/
theorem subgenre_id_ne_track_id (a b : String) :
    "SUBGENRE:" ++ a ≠ "TRACK:" ++ b := by
  intro h
  have h2 : ("SUBGENRE:" ++ a).data = ("TRACK:" ++ b).data :=
    congrArg String.data h
  have h3 : ['S', 'U', 'B', 'G', 'E', 'N', 'R', 'E', ':'] ++ a.data
      = ['T', 'R', 'A', 'C', 'K', ':'] ++ b.data := h2
  simp at h3

/-- A `TAG:` id is never a `TRACK:` id. -/
theorem tag_id_ne_track_id (a b : String) :
    "TAG:" ++ a ≠ "TRACK:" ++ b := by
  intro h
  have h2 : ("TAG:" ++ a).data = ("TRACK:" ++ b).data :=
    congrArg String.data h
  have h3 : ['T', 'A', 'G', ':'] ++ a.data
      = ['T', 'R', 'A', 'C', 'K', ':'] ++ b.data := h2
  simp at h3

/-- Every id produced by `trackCentralId` carries the `TRACK:` prefix. -/
theorem trackCentralId_eq (t : Track) :
    ∃ r, trackCentralId t = "TRACK:" ++ r := by
  unfold trackCentralId
  exact ⟨_, rfl⟩

/-- Adding a node to the empty identity map appends it. -/
theorem addNode_empty (n : Node) : addNode ⟨[], []⟩ n = ⟨[n], [n.id]⟩ := by
  simp [addNode]

/-- The links of a Track-view build: one link from the central track node
to each distinct tag, in input order. -/
theorem buildTrackGenreGraph_links (track : Track) (tags : List String) :
    (buildTrackGenreGraph track tags).links
      = (uniqueInOrder (tags.take 12)).map
          (fun t => ⟨trackCentralId track, "TAG:" ++ t⟩) := by
  simp only [buildTrackGenreGraph]
  rw [foldl_buildStep_links]
  simp

/-- The nodes of a Track-view build, as a list: the start state seen by the
tag loop. -/
theorem buildTrackGenreGraph_start (track : Track) :
    addNode ⟨[], []⟩ (trackCentralNode track)
      = ⟨[trackCentralNode track], [trackCentralId track]⟩ :=
  addNode_empty _

/-- Node-id membership in a Track-view build. -/
theorem buildTrackGenreGraph_ids (track : Track) (tags : List String)
    (x : String) :
    x ∈ (buildTrackGenreGraph track tags).nodes.map (·.id)
      ↔ x = trackCentralId track
        ∨ ∃ t ∈ uniqueInOrder (tags.take 12), x = "TAG:" ++ t := by
  simp only [buildTrackGenreGraph]
  rw [← foldl_buildStep_seen_eq_map _ _ _ _
    (by rw [buildTrackGenreGraph_start]; rfl)]
  rw [foldl_buildStep_seen_iff]
  rw [buildTrackGenreGraph_start]
  simp [tagNode]

/-- The node ids of a Track-view build are duplicate-free. -/
theorem buildTrackGenreGraph_ids_nodup (track : Track) (tags : List String) :
    ((buildTrackGenreGraph track tags).nodes.map (·.id)).Nodup := by
  simp only [buildTrackGenreGraph]
  rw [← foldl_buildStep_seen_eq_map _ _ _ _
    (by rw [buildTrackGenreGraph_start]; rfl)]
  apply foldl_buildStep_seen_nodup
  rw [buildTrackGenreGraph_start]
  simp

/-- Every node of a Track-view build is the central node or a tag node. -/
theorem buildTrackGenreGraph_mem_nodes (track : Track) (tags : List String)
    (m : Node) (h : m ∈ (buildTrackGenreGraph track tags).nodes) :
    m = trackCentralNode track
      ∨ ∃ t ∈ uniqueInOrder (tags.take 12), m = tagNode t := by
  simp only [buildTrackGenreGraph] at h
  rcases foldl_buildStep_mem_nodes _ _ _ _ _ h with h2 | ⟨t, ht, rfl⟩
  · rw [buildTrackGenreGraph_start] at h2
    simp at h2
    exact Or.inl h2
  · exact Or.inr ⟨t, ht, rfl⟩

/-- The central nodes of a Track-view build: exactly the central track
node. -/
theorem buildTrackGenreGraph_central (track : Track) (tags : List String) :
    (buildTrackGenreGraph track tags).nodes.filter (·.isCentral)
      = [trackCentralNode track] := by
  simp only [buildTrackGenreGraph]
  rw [foldl_buildStep_filter_central _ _ _ _ (fun t => rfl)]
  rw [buildTrackGenreGraph_start]
  simp [trackCentralNode]

/-- The identity-map state of a Genre-focus build just before the subgenre
loop, with a context track: the context node then the central genre node. -/
theorem genreFocus_pre_state (tr : Track) (name : String) (flag : Bool) :
    addNode (addNode ⟨[], []⟩ (contextTrackNode tr))
        (genreCentralNode name flag)
      = ⟨[contextTrackNode tr, genreCentralNode name flag],
         [trackCentralId tr, "GENRE:" ++ name]⟩ := by
  rw [addNode_empty]
  unfold addNode
  rw [if_neg]
  · rfl
  · obtain ⟨r, hr⟩ := trackCentralId_eq tr
    simp [contextTrackNode, genreCentralNode, hr]
    intro h
    exact genre_id_ne_track_id _ _ h

/-- The identity-map state of a Genre-focus build just before the subgenre
loop, without a context track. -/
theorem genreFocus_pre_state_none (name : String) (flag : Bool) :
    addNode (⟨[], []⟩ : BuildState) (genreCentralNode name flag)
      = ⟨[genreCentralNode name flag], ["GENRE:" ++ name]⟩ :=
  addNode_empty _

/-- The links of a Genre-focus build: the optional context link followed by
one link from the central genre node per resolver item, in order,
regardless of node deduplication. -/
theorem buildGenreFocusGraph_links (genreName : String) (st : Option Track)
    (flag : Bool) (subs : List String) (hne : genreName ≠ "") (g : Graph)
    (hg : buildGenreFocusGraph genreName st flag subs = some g) :
    g.links = (match st with
      | none => []
      | some tr => [⟨trackCentralId tr, "GENRE:" ++ jsTrim genreName⟩])
      ++ subs.map (fun t =>
          (⟨"GENRE:" ++ jsTrim genreName, "SUBGENRE:" ++ t⟩ : Link)) := by
  cases st with
  | none =>
    simp only [buildGenreFocusGraph, if_neg hne] at hg
    injection hg with hg
    subst hg
    simp [foldl_buildStep_links]
  | some tr =>
    simp only [buildGenreFocusGraph, if_neg hne] at hg
    injection hg with hg
    subst hg
    simp [foldl_buildStep_links]

/-- Node-id membership in a Genre-focus build. -/
theorem buildGenreFocusGraph_ids (genreName : String) (st : Option Track)
    (flag : Bool) (subs : List String) (hne : genreName ≠ "") (g : Graph)
    (hg : buildGenreFocusGraph genreName st flag subs = some g) (x : String) :
    x ∈ g.nodes.map (·.id)
      ↔ (∃ tr, st = some tr ∧ x = trackCentralId tr)
        ∨ x = "GENRE:" ++ jsTrim genreName
        ∨ ∃ t ∈ subs, x = "SUBGENRE:" ++ t := by
  cases st with
  | none =>
    simp only [buildGenreFocusGraph, if_neg hne] at hg
    injection hg with hg
    subst hg
    simp only []
    rw [← foldl_buildStep_seen_eq_map _ _ _ _
      (by rw [genreFocus_pre_state_none]; rfl)]
    rw [foldl_buildStep_seen_iff]
    rw [genreFocus_pre_state_none]
    simp [subgenreNode]
  | some tr =>
    simp only [buildGenreFocusGraph, if_neg hne] at hg
    injection hg with hg
    subst hg
    simp only []
    rw [← foldl_buildStep_seen_eq_map _ _ _ _
      (by rw [genreFocus_pre_state]; rfl)]
    rw [foldl_buildStep_seen_iff]
    rw [genreFocus_pre_state]
    simp [subgenreNode]
    tauto

/-- The node ids of a Genre-focus build are duplicate-free: the identity
map deduplicates within one build. -/
theorem buildGenreFocusGraph_ids_nodup (genreName : String) (st : Option Track)
    (flag : Bool) (subs : List String) (hne : genreName ≠ "") (g : Graph)
    (hg : buildGenreFocusGraph genreName st flag subs = some g) :
    (g.nodes.map (·.id)).Nodup := by
  cases st with
  | none =>
    simp only [buildGenreFocusGraph, if_neg hne] at hg
    injection hg with hg
    subst hg
    simp only []
    rw [← foldl_buildStep_seen_eq_map _ _ _ _
      (by rw [genreFocus_pre_state_none]; rfl)]
    apply foldl_buildStep_seen_nodup
    rw [genreFocus_pre_state_none]
    simp
  | some tr =>
    simp only [buildGenreFocusGraph, if_neg hne] at hg
    injection hg with hg
    subst hg
    simp only []
    rw [← foldl_buildStep_seen_eq_map _ _ _ _
      (by rw [genreFocus_pre_state]; rfl)]
    apply foldl_buildStep_seen_nodup
    rw [genreFocus_pre_state]
    obtain ⟨r, hr⟩ := trackCentralId_eq tr
    simp [hr]
    intro h
    exact genre_id_ne_track_id _ _ h.symm

/-- Every node of a Genre-focus build is the context node, the central
node, or a subgenre node. -/
theorem buildGenreFocusGraph_mem_nodes (genreName : String)
    (st : Option Track) (flag : Bool) (subs : List String)
    (hne : genreName ≠ "") (g : Graph)
    (hg : buildGenreFocusGraph genreName st flag subs = some g) (m : Node)
    (h : m ∈ g.nodes) :
    (∃ tr, st = some tr ∧ m = contextTrackNode tr)
      ∨ m = genreCentralNode (jsTrim genreName) flag
      ∨ ∃ t ∈ subs, m = subgenreNode t := by
  cases st with
  | none =>
    simp only [buildGenreFocusGraph, if_neg hne] at hg
    injection hg with hg
    subst hg
    rcases foldl_buildStep_mem_nodes _ _ _ _ _ h with h2 | ⟨t, ht, rfl⟩
    · rw [genreFocus_pre_state_none] at h2
      simp at h2
      exact Or.inr (Or.inl h2)
    · exact Or.inr (Or.inr ⟨t, ht, rfl⟩)
  | some tr =>
    simp only [buildGenreFocusGraph, if_neg hne] at hg
    injection hg with hg
    subst hg
    rcases foldl_buildStep_mem_nodes _ _ _ _ _ h with h2 | ⟨t, ht, rfl⟩
    · rw [genreFocus_pre_state] at h2
      simp at h2
      rcases h2 with h2 | h2
      · exact Or.inl ⟨tr, rfl, h2⟩
      · exact Or.inr (Or.inl h2)
    · exact Or.inr (Or.inr ⟨t, ht, rfl⟩)

/-- The central nodes of a Genre-focus build: exactly the central genre
node. -/
theorem buildGenreFocusGraph_central (genreName : String) (st : Option Track)
    (flag : Bool) (subs : List String) (hne : genreName ≠ "") (g : Graph)
    (hg : buildGenreFocusGraph genreName st flag subs = some g) :
    g.nodes.filter (·.isCentral)
      = [genreCentralNode (jsTrim genreName) flag] := by
  cases st with
  | none =>
    simp only [buildGenreFocusGraph, if_neg hne] at hg
    injection hg with hg
    subst hg
    simp only []
    rw [foldl_buildStep_filter_central _ _ _ _ (fun t => rfl)]
    rw [genreFocus_pre_state_none]
    simp [genreCentralNode]
  | some tr =>
    simp only [buildGenreFocusGraph, if_neg hne] at hg
    injection hg with hg
    subst hg
    simp only []
    rw [foldl_buildStep_filter_central _ _ _ _ (fun t => rfl)]
    rw [genreFocus_pre_state]
    simp [genreCentralNode, contextTrackNode]

/-- C1: every link of a graph built by `buildTrackGenreGraph` or
`buildGenreFocusGraph` has both its source id and its target id among the
ids of that graph's node set; no built graph contains a dangling link. -/
theorem c1_referential_integrity (track : Track) (tags : List String)
    (genreName : String) (st : Option Track) (flag : Bool)
    (subs : List String) :
    noDanglingLinks (buildTrackGenreGraph track tags)
      ∧ ∀ g, buildGenreFocusGraph genreName st flag subs = some g →
          noDanglingLinks g := by
  constructor
  · intro l hl
    rw [buildTrackGenreGraph_links] at hl
    obtain ⟨t, ht, rfl⟩ := List.mem_map.mp hl
    constructor
    · have := (buildTrackGenreGraph_ids track tags
        (trackCentralId track)).mpr (Or.inl rfl)
      obtain ⟨n, hn, hid⟩ := List.mem_map.mp this
      exact ⟨n, hn, hid⟩
    · have := (buildTrackGenreGraph_ids track tags
        ("TAG:" ++ t)).mpr (Or.inr ⟨t, ht, rfl⟩)
      obtain ⟨n, hn, hid⟩ := List.mem_map.mp this
      exact ⟨n, hn, hid⟩
  · intro g hg
    by_cases hne : genreName = ""
    · rw [hne] at hg
      simp [buildGenreFocusGraph] at hg
    intro l hl
    rw [buildGenreFocusGraph_links genreName st flag subs hne g hg] at hl
    have hmem : ∀ x, x ∈ g.nodes.map (·.id) → ∃ n ∈ g.nodes, n.id = x := by
      intro x hx
      obtain ⟨n, hn, hid⟩ := List.mem_map.mp hx
      exact ⟨n, hn, hid⟩
    have hids := buildGenreFocusGraph_ids genreName st flag subs hne g hg
    rcases List.mem_append.mp hl with hctx | hsub
    · cases st with
      | none => simp at hctx
      | some tr =>
        simp at hctx
        subst hctx
        constructor
        · exact hmem _ ((hids _).mpr (Or.inl ⟨tr, rfl, rfl⟩))
        · exact hmem _ ((hids _).mpr (Or.inr (Or.inl rfl)))
    · obtain ⟨t, ht, rfl⟩ := List.mem_map.mp hsub
      constructor
      · exact hmem _ ((hids _).mpr (Or.inr (Or.inl rfl)))
      · exact hmem _ ((hids _).mpr (Or.inr (Or.inr ⟨t, ht, rfl⟩)))

/-- Witness for C1 at concrete inputs. -/
theorem c1_referential_integrity_witness :
    noDanglingLinks (buildTrackGenreGraph sampleTrack ["grime", "uk rap"])
      ∧ noDanglingLinks sampleGenreGraph :=
  ⟨(c1_referential_integrity sampleTrack ["grime", "uk rap"] "grime"
      (some sampleTrack) true ["uk drill", "grime", "uk drill"]).1,
   (c1_referential_integrity sampleTrack ["grime", "uk rap"] "grime"
      (some sampleTrack) true ["uk drill", "grime", "uk drill"]).2
     sampleGenreGraph (by rfl)⟩

/-- C2: every graph produced by either builder has exactly one node with
`isCentral = true`, and it is the focal entity: the central track node of
the selected track in the Track view, the central genre node of the
(trimmed) focused name in the Genre-focus view. -/
theorem c2_exactly_one_central (track : Track) (tags : List String)
    (genreName : String) (st : Option Track) (flag : Bool)
    (subs : List String) :
    (buildTrackGenreGraph track tags).nodes.filter (·.isCentral)
        = [trackCentralNode track]
      ∧ ∀ g, buildGenreFocusGraph genreName st flag subs = some g →
          g.nodes.filter (·.isCentral)
            = [genreCentralNode (jsTrim genreName) flag] := by
  constructor
  · exact buildTrackGenreGraph_central track tags
  · intro g hg
    by_cases hne : genreName = ""
    · rw [hne] at hg
      simp [buildGenreFocusGraph] at hg
    exact buildGenreFocusGraph_central genreName st flag subs hne g hg

/-- Witness for C2 at concrete inputs. -/
theorem c2_exactly_one_central_witness :
    (buildTrackGenreGraph sampleTrack ["grime", "uk rap"]).nodes.filter
        (·.isCentral) = [trackCentralNode sampleTrack]
      ∧ sampleGenreGraph.nodes.filter (·.isCentral)
          = [genreCentralNode (jsTrim "grime") true] :=
  ⟨(c2_exactly_one_central sampleTrack ["grime", "uk rap"] "grime"
      (some sampleTrack) true ["uk drill", "grime", "uk drill"]).1,
   (c2_exactly_one_central sampleTrack ["grime", "uk rap"] "grime"
      (some sampleTrack) true ["uk drill", "grime", "uk drill"]).2
     sampleGenreGraph (by rfl)⟩

/-- C3: on a track by "Skepta", the normalize/filter pipeline (fetch-side
normalization and denylist, then the selection-side artist filter) maps
the raw tag list `["Seen live", "UK", "90s", "Trap", "SKEPTA"]` to exactly
`["trap"]`. -/
theorem c3_filter_correctness :
    initialFilteredTags "Skepta"
        (processTopTags
          [("Seen live", 50), ("UK", 40), ("90s", 30), ("Trap", 20),
           ("SKEPTA", 10)] 12)
        [] = ["trap"] := by
  decide

/-- Values of the curated category table are never empty strings. -/
theorem lookup_table_val_ne_empty :
    ∀ (l : List (String × String)) (k a : String), (∀ p ∈ l, p.2 ≠ "") →
      l.lookup k = some a → a ≠ "" := by
  intro l
  induction l with
  | nil => intro k a hp h; simp [List.lookup] at h
  | cons p t ih =>
    intro k a hp h
    obtain ⟨k', v⟩ := p
    rw [List.lookup] at h
    by_cases hk : k == k'
    · have hv := hp (k', v) (by simp)
      rw [hk] at h
      simp at h
      simp_all
    · rw [Bool.not_eq_true] at hk
      rw [hk] at h
      exact ih k a (fun q hq => hp q (by simp [hq])) h

/-- The candidate loop returns the first candidate with a non-empty
lookup result, unmodified, and `[]` when there is none. -/
theorem tryCandidates_eq_find (lookup : String → List String)
    (ks : List String) :
    tryCandidates lookup ks
      = match ks.find? (fun t => !(lookup t).isEmpty) with
        | some k => lookup k
        | none => [] := by
  induction ks with
  | nil => rfl
  | cons k ks ih =>
    unfold tryCandidates
    by_cases h : lookup k = []
    · rw [if_pos h, ih, List.find?_cons]
      have : (!(lookup k).isEmpty) = false := by simp [h]
      rw [this]
    · rw [if_neg h, List.find?_cons]
      have : (!(lookup k).isEmpty) = true := by
        simp [List.isEmpty_iff]
        exact h
      rw [this]

/-- C4: the Taxonomy Resolver's candidate list is a deterministic function
of the genre name; when the curated alias table has an entry for the
normalized name, that entry is the first candidate, ahead of the
space/hyphen variants and the generic suffix candidates (witnessed
concretely for "hip-hop"); the resolver returns the first candidate's
non-empty member list unmodified, and the empty list when every candidate
yields nothing or errors. -/
theorem c4_taxonomy_fallback_order (lookup : String → List String)
    (genreName : String) (hne : genreName ≠ "") :
    (∀ a, GENRE_TO_WIKI_CATEGORY (normalizeTagName genreName) = some a →
        (candidateKeys genreName).head? = some a)
      ∧ (∀ k,
          (candidateKeys genreName).find? (fun t => !(lookup t).isEmpty)
              = some k →
            fetchSubgenresFromWikipedia lookup genreName = lookup k)
      ∧ ((∀ k ∈ candidateKeys genreName, lookup k = []) →
          fetchSubgenresFromWikipedia lookup genreName = [])
      ∧ candidateKeys "hip-hop"
          = ["Hip hop music genres", "hip hop", "hiphop",
             "hip-hop music genres", "hip-hop music", "hip-hop",
             "hip-hop genres"] := by
  refine ⟨?_, ?_, ?_, by decide⟩
  · intro a ha
    have hane : a ≠ "" := by
      refine lookup_table_val_ne_empty GENRE_TO_WIKI_CATEGORY_TABLE
        (normalizeTagName genreName) a ?_ ha
      decide
    unfold candidateKeys candidateVariations
    rw [ha]
    simp [List.filterMap_cons, List.filter_cons, hane]
  · intro k hk
    unfold fetchSubgenresFromWikipedia
    rw [if_neg hne, tryCandidates_eq_find, hk]
  · intro hall
    unfold fetchSubgenresFromWikipedia
    rw [if_neg hne, tryCandidates_eq_find]
    have : (candidateKeys genreName).find? (fun t => !(lookup t).isEmpty)
        = none := by
      rw [List.find?_eq_none]
      intro x hx
      simp [hall x hx]
    rw [this]

/-- Witness for C4 at the concrete genre "hip-hop". -/
theorem c4_taxonomy_fallback_order_witness :
    (candidateKeys "hip-hop").head? = some "Hip hop music genres"
      ∧ fetchSubgenresFromWikipedia sampleSubgenreLookup "hip-hop"
          = sampleSubgenreLookup "Hip hop music genres" :=
  ⟨(c4_taxonomy_fallback_order sampleSubgenreLookup "hip-hop"
      (by decide)).1 "Hip hop music genres" (by decide),
   (c4_taxonomy_fallback_order sampleSubgenreLookup "hip-hop"
      (by decide)).2.1 "Hip hop music genres" (by decide)⟩

/-- Every tag produced by the fetch-side pipeline is non-empty, not
denylisted, and a fixed point of normalization. -/
theorem processTopTags_mem {raw : List (String × Nat)} {limit : Nat}
    {e : String} (h : e ∈ processTopTags raw limit) :
    normalizeTagName e = e ∧ e ≠ ""
      ∧ LASTFM_BANNED_TAGS.contains e = false := by
  unfold processTopTags at h
  rw [List.mem_filter] at h
  obtain ⟨hmem, hpred⟩ := h
  obtain ⟨t, _, rfl⟩ := List.mem_map.mp hmem
  rw [Bool.and_eq_true] at hpred
  refine ⟨normalizeTagName_idem _, ?_, ?_⟩
  · simpa using hpred.1
  · simpa using hpred.2

/-- On fetch-side pipeline outputs, the back-button filter and the
selection filter agree: the extra non-empty and denylist checks of the
back path are no-ops there. -/
theorem backFilteredTags_eq_initial (artist : String) (A T : List String)
    (hA : ∀ e ∈ A ++ T,
      normalizeTagName e = e ∧ e ≠ ""
        ∧ LASTFM_BANNED_TAGS.contains e = false) :
    backFilteredTags artist A T = initialFilteredTags artist A T := by
  unfold backFilteredTags initialFilteredTags
  apply List.filter_congr
  intro tag htag
  obtain ⟨hnorm, hne, hban⟩ := hA tag (uniqueInOrder_subset _ htag)
  simp only [hnorm, hne, hban]
  simp [hne]

/-- C5: after selecting a track, focusing a genre from it, and clicking
back — with the Last.fm provider returning the same responses both times —
the detail panel equals the snapshot captured at selection, the re-derived
filtered tag list equals the one of the original selection path, and the
regenerated track graph equals the original track graph. -/
theorem c5_back_rederivation (render : Track → String) (s0 : AppState)
    (track : Track) (rawA rawT : List (String × Nat)) (genreName : String)
    (flag : Bool) (subs : List String) (wikiPanelHTML : String) :
    let s1 := onITunesTrackSelected render s0 track rawA rawT
    let s2 := focusGenreEvent s1 genreName s1.currentTrack flag subs
      wikiPanelHTML
    let s3 := clickBack s2 rawA rawT
    s3.infoContent = render track
      ∧ s1.currentTrackHTML = some s3.infoContent
      ∧ backFilteredTags (artistOf track) (processTopTags rawA 12)
            (processTopTags rawT 12)
          = initialFilteredTags (artistOf track) (processTopTags rawA 12)
            (processTopTags rawT 12)
      ∧ s3.graph = s1.graph := by
  intro s1 s2 s3
  have hfilters : backFilteredTags (artistOf track) (processTopTags rawA 12)
        (processTopTags rawT 12)
      = initialFilteredTags (artistOf track) (processTopTags rawA 12)
        (processTopTags rawT 12) := by
    apply backFilteredTags_eq_initial
    intro e he
    rcases List.mem_append.mp he with he | he
    · exact processTopTags_mem he
    · exact processTopTags_mem he
  refine ⟨?_, ?_, hfilters, ?_⟩
  · simp [s3, s2, s1, clickBack, focusGenreEvent, onITunesTrackSelected]
  · simp [s3, s2, s1, clickBack, focusGenreEvent, onITunesTrackSelected]
  · simp [s3, s2, s1, clickBack, focusGenreEvent, onITunesTrackSelected,
      hfilters]

/-- C6 counterexample: clicking a genre node while a current track is set
dispatches a Genre-focus build with no context track (`sourceTrack`
defaults to `null` in the `buildGenreFocusGraph(label)` call of app.js line
712), not with the current track; the resulting graph contains no context
node. -/
theorem c6_counterexample :
    onNodeClickAction sampleGenreNode (some sampleTrack)
        = ClickAction.focusGenre "jazz" none false
      ∧ onNodeClickAction sampleGenreNode (some sampleTrack)
          ≠ ClickAction.focusGenre "jazz" (some sampleTrack) false
      ∧ (buildGenreFocusGraph "jazz" none false []).map
          (fun g => g.nodes.filter (·.isContext)) = some [] := by
  decide

/-- C6 amended: a click on a genre node dispatches a Genre-focus build
with no context track — even when a current track is set — and with the
preserve-role flag unset; by contrast, a click on a tag node carries the
current track as context with the flag set. -/
theorem c6_genre_click_no_context (node : Node) (currentTrack : Option Track)
    (h1 : node.type ≠ "track") (h2 : node.type ≠ "tag")
    (h3 : node.type = "genre"
      ∨ (node.id ≠ "" ∧ node.id.startsWith "GENRE:")) :
    onNodeClickAction node currentTrack
        = ClickAction.focusGenre node.label none false
      ∧ ∀ n' : Node, n'.type = "tag" →
          onNodeClickAction n' currentTrack
            = ClickAction.focusGenre n'.label currentTrack true := by
  constructor
  · unfold onNodeClickAction
    rw [if_neg h1, if_neg h2, if_pos h3]
  · intro n' ht
    unfold onNodeClickAction
    rw [if_neg (by rw [ht]; decide), if_pos ht]

/-- Witness for the amended C6 at a concrete genre node and current
track. -/
theorem c6_genre_click_no_context_witness :
    onNodeClickAction sampleGenreNode (some sampleTrack)
        = ClickAction.focusGenre sampleGenreNode.label none false
      ∧ onNodeClickAction (tagNode "grime") (some sampleTrack)
          = ClickAction.focusGenre (tagNode "grime").label
              (some sampleTrack) true :=
  ⟨(c6_genre_click_no_context sampleGenreNode (some sampleTrack)
      (by decide) (by decide) (by decide)).1,
   (c6_genre_click_no_context sampleGenreNode (some sampleTrack)
      (by decide) (by decide) (by decide)).2 (tagNode "grime") (by decide)⟩

/-- C7 counterexample: focusing a genre for which the Taxonomy Resolver
returned the empty list yields a central node whose `isPlaceholder` is
`false` — no builder in app.js ever sets `isPlaceholder`, so the node is
not marked as a placeholder (it is still included in the node set). -/
theorem c7_counterexample :
    (buildGenreFocusGraph "jazz" none false []).map
        (fun g => g.nodes.map (fun n => (n.isCentral, n.isPlaceholder)))
      = some [(true, false)] := by
  decide

/-- C7 amended: the builders never set `isPlaceholder`: every node of
every built graph has `isPlaceholder = false` (and is rendered with
`data-placeholder="false"`); focusing a genre with an empty resolver
result and no context still yields the central node — a one-node,
zero-link graph that the render surface does display. -/
theorem c7_placeholder_never_set (track : Track) (tags : List String)
    (genreName : String) (st : Option Track) (flag : Bool)
    (subs : List String) :
    (∀ n ∈ (buildTrackGenreGraph track tags).nodes, n.isPlaceholder = false)
      ∧ ∀ g, buildGenreFocusGraph genreName st flag subs = some g →
          (∀ n ∈ g.nodes, n.isPlaceholder = false)
            ∧ (st = none → subs = [] →
                g.nodes = [genreCentralNode (jsTrim genreName) flag]
                  ∧ g.links = []
                  ∧ renderGraph g.nodes g.title
                      = some (g.title,
                          [("GENRE:" ++ jsTrim genreName, "false")])) := by
  constructor
  · intro n hn
    rcases buildTrackGenreGraph_mem_nodes track tags n hn with rfl | ⟨t, _, rfl⟩
    · rfl
    · rfl
  · intro g hg
    have hne : genreName ≠ "" := by
      intro h
      rw [h] at hg
      simp [buildGenreFocusGraph] at hg
    constructor
    · intro n hn
      rcases buildGenreFocusGraph_mem_nodes genreName st flag subs hne g hg
          n hn with ⟨tr, _, rfl⟩ | rfl | ⟨t, _, rfl⟩
      · rfl
      · rfl
      · rfl
    · rintro rfl rfl
      simp only [buildGenreFocusGraph, if_neg hne] at hg
      rw [addNode_empty] at hg
      injection hg with hg
      subst hg
      refine ⟨rfl, rfl, ?_⟩
      simp [renderGraph, renderDatum, genreCentralNode]

/-- Witness for the amended C7 at concrete inputs, including the
empty-resolver focus. -/
theorem c7_placeholder_never_set_witness :
    (∀ n ∈ (buildTrackGenreGraph sampleTrack ["grime"]).nodes,
        n.isPlaceholder = false)
      ∧ ((buildGenreFocusGraph "jazz" none false []).getD
            ⟨[], [], ""⟩).nodes
          = [genreCentralNode (jsTrim "jazz") false] :=
  ⟨(c7_placeholder_never_set sampleTrack ["grime"] "jazz" none false []).1,
   (((c7_placeholder_never_set sampleTrack ["grime"] "jazz" none false []).2
      ((buildGenreFocusGraph "jazz" none false []).getD ⟨[], [], ""⟩)
      (by rfl)).2 rfl rfl).1⟩

/-- C8 counterexample: within one Genre-focus build, the same genre name
occurring as the focal entity and as a resolver-returned subgenre does NOT
map to the same id: the central node gets `GENRE:jazz`, the subgenre gets
`SUBGENRE:jazz`, so the build keeps two nodes for the one logical entity
(plus a self-referential link), not one. -/
theorem c8_counterexample :
    (buildGenreFocusGraph "jazz" none false ["jazz"]).map
        (fun g => (g.nodes.map (·.label), g.nodes.map (·.id), g.links))
      = some (["jazz", "jazz"], ["GENRE:jazz", "SUBGENRE:jazz"],
          [⟨"GENRE:jazz", "SUBGENRE:jazz"⟩]) := by
  decide

/-- C8 amended: node ids are namespaced by role and content — the focal
genre gets `GENRE:<name>`, a resolver item gets `SUBGENRE:<title>` — so the
same name as focal entity and as subgenre yields two distinct ids (and two
nodes); within one namespace ids are content-determined, and the identity
map makes a second add of the same id a no-op, so the node ids of every
build are duplicate-free and a subgenre title occurring several times
yields exactly one node. -/
theorem c8_role_namespaced_ids (genreName : String) (st : Option Track)
    (flag : Bool) (subs : List String) (g : Graph)
    (hg : buildGenreFocusGraph genreName st flag subs = some g) :
    (g.nodes.map (·.id)).Nodup
      ∧ ("GENRE:" ++ jsTrim genreName) ∈ g.nodes.map (·.id)
      ∧ (∀ t ∈ subs, ("SUBGENRE:" ++ t) ∈ g.nodes.map (·.id)
          ∧ (g.nodes.map (·.id)).count ("SUBGENRE:" ++ t) = 1)
      ∧ ∀ t : String, "SUBGENRE:" ++ t ≠ "GENRE:" ++ jsTrim genreName := by
  have hne : genreName ≠ "" := by
    intro h
    rw [h] at hg
    simp [buildGenreFocusGraph] at hg
  have hnodup := buildGenreFocusGraph_ids_nodup genreName st flag subs hne g hg
  have hids := buildGenreFocusGraph_ids genreName st flag subs hne g hg
  refine ⟨hnodup, (hids _).mpr (Or.inr (Or.inl rfl)), ?_, ?_⟩
  · intro t ht
    have hmem := (hids _).mpr (Or.inr (Or.inr ⟨t, ht, rfl⟩))
    exact ⟨hmem, List.count_eq_one_of_mem hnodup hmem⟩
  · intro t
    exact subgenre_id_ne_genre_id t (jsTrim genreName)

/-- Witness for the amended C8 on a build whose resolver output repeats a
title. -/
theorem c8_role_namespaced_ids_witness :
    (sampleGenreGraph.nodes.map (·.id)).Nodup
      ∧ ("SUBGENRE:" ++ "uk drill") ∈ sampleGenreGraph.nodes.map (·.id) :=
  ⟨(c8_role_namespaced_ids "grime" (some sampleTrack) true
      ["uk drill", "grime", "uk drill"] sampleGenreGraph (by rfl)).1,
   ((c8_role_namespaced_ids "grime" (some sampleTrack) true
      ["uk drill", "grime", "uk drill"] sampleGenreGraph (by rfl)).2.2.1
     "uk drill" (by decide)).1⟩

/-- Helper lemmas for the summary-cache loop: a run that fails overall
changed nothing and queried every title. -/
theorem trySummaryTitles_none (provider : String → Option WikiSummary)
    (cache : List (String × WikiSummary)) (genreName : String)
    (ts : List String)
    (h : (trySummaryTitles provider cache genreName ts).1 = none) :
    trySummaryTitles provider cache genreName ts = (none, cache, ts) := by
  induction ts with
  | nil => rfl
  | cons t ts ih =>
    unfold trySummaryTitles at h ⊢
    cases hp : provider t with
    | some payload => rw [hp] at h; simp at h
    | none =>
      rw [hp] at h
      simp only [] at h ⊢
      rw [ih h]

/-- A successful summary run writes exactly one entry, keyed on the name
the caller passed. -/
theorem trySummaryTitles_some (provider : String → Option WikiSummary)
    (cache : List (String × WikiSummary)) (genreName : String)
    (ts : List String) (p : WikiSummary)
    (h : (trySummaryTitles provider cache genreName ts).1 = some p) :
    (trySummaryTitles provider cache genreName ts).2.1
      = (genreName, p) :: cache := by
  induction ts with
  | nil => simp [trySummaryTitles] at h
  | cons t ts ih =>
    unfold trySummaryTitles at h ⊢
    cases hp : provider t with
    | some payload =>
      rw [hp] at h
      simp at h
      subst h
      rfl
    | none =>
      rw [hp] at h
      simp only [] at h ⊢
      exact ih h

/-- C9: the summary cache is keyed on the exact original-case name the
caller passed (even though resolution internally tries the alias and
"`<name>` music" variants): a hit returns the cached payload with no
provider query; the first success writes through under that key; a failed
lookup returns `none`, stores nothing, and a repeated lookup of the same
failing name queries the provider again (its query list is non-empty
again). -/
theorem c9_summary_cache_policy (provider : String → Option WikiSummary)
    (cache : List (String × WikiSummary)) (genreName : String)
    (hne : genreName ≠ "") :
    (∀ p, cache.lookup genreName = some p →
        fetchGenreSummaryFromWikipedia provider cache genreName
          = (some p, cache, []))
      ∧ (∀ p, cache.lookup genreName = none →
          (fetchGenreSummaryFromWikipedia provider cache genreName).1
              = some p →
            (fetchGenreSummaryFromWikipedia provider cache genreName).2.1
              = (genreName, p) :: cache)
      ∧ (cache.lookup genreName = none →
          (fetchGenreSummaryFromWikipedia provider cache genreName).1
              = none →
            fetchGenreSummaryFromWikipedia provider cache genreName
                = (none, cache,
                   [((WIKI_ALIAS (normalizeTagName genreName)).getD genreName)
                       ++ " music",
                    (WIKI_ALIAS (normalizeTagName genreName)).getD genreName])
              ∧ (fetchGenreSummaryFromWikipedia provider
                  (fetchGenreSummaryFromWikipedia provider cache
                    genreName).2.1 genreName).2.2 ≠ []) := by
  refine ⟨?_, ?_, ?_⟩
  · intro p hp
    unfold fetchGenreSummaryFromWikipedia
    rw [if_neg hne, hp]
  · intro p hmiss hsome
    unfold fetchGenreSummaryFromWikipedia at hsome ⊢
    rw [if_neg hne, hmiss] at hsome ⊢
    simp only [] at hsome ⊢
    exact trySummaryTitles_some provider cache genreName _ p hsome
  · intro hmiss hnone
    have h1 : fetchGenreSummaryFromWikipedia provider cache genreName
        = trySummaryTitles provider cache genreName
            [((WIKI_ALIAS (normalizeTagName genreName)).getD genreName)
                ++ " music",
             (WIKI_ALIAS (normalizeTagName genreName)).getD genreName] := by
      unfold fetchGenreSummaryFromWikipedia
      rw [if_neg hne, hmiss]
    rw [h1] at hnone
    have hfetch : fetchGenreSummaryFromWikipedia provider cache genreName
        = (none, cache,
           [((WIKI_ALIAS (normalizeTagName genreName)).getD genreName)
               ++ " music",
            (WIKI_ALIAS (normalizeTagName genreName)).getD genreName]) := by
      rw [h1]
      exact trySummaryTitles_none provider cache genreName _ hnone
    refine ⟨hfetch, ?_⟩
    rw [hfetch]
    simp only []
    rw [hfetch]
    simp

/-- Witness for C9: a cache hit is served without provider queries, and a
failing lookup stores nothing while querying both candidate titles. -/
theorem c9_summary_cache_policy_witness :
    fetchGenreSummaryFromWikipedia failingProvider
        [("jazz", sampleSummary)] "jazz"
        = (some sampleSummary, [("jazz", sampleSummary)], [])
      ∧ fetchGenreSummaryFromWikipedia failingProvider [] "jazz"
          = (none, [], ["jazz music", "jazz"]) :=
  ⟨(c9_summary_cache_policy failingProvider [("jazz", sampleSummary)] "jazz"
      (by decide)).1 sampleSummary (by decide),
   ((c9_summary_cache_policy failingProvider [] "jazz" (by decide)).2.2
      (by decide) (by decide)).1⟩

/-- C10: in a Genre-focus build, deduplication applies to nodes but not to
links: a subgenre title occurring `k` times in the resolver output yields
one node and `k` identical links from the central genre node; in the Track
view the tag list is deduplicated before links are created, so its links
are pairwise distinct. -/
theorem c10_link_multiplicity (genreName : String) (st : Option Track)
    (flag : Bool) (subs : List String) (g : Graph)
    (hg : buildGenreFocusGraph genreName st flag subs = some g)
    (t : String) (track : Track) (tags : List String) :
    g.links.count ⟨"GENRE:" ++ jsTrim genreName, "SUBGENRE:" ++ t⟩
        = subs.count t
      ∧ (t ∈ subs → (g.nodes.map (·.id)).count ("SUBGENRE:" ++ t) = 1)
      ∧ (buildTrackGenreGraph track tags).links.Nodup := by
  have hne : genreName ≠ "" := by
    intro h
    rw [h] at hg
    simp [buildGenreFocusGraph] at hg
  refine ⟨?_, ?_, ?_⟩
  · rw [buildGenreFocusGraph_links genreName st flag subs hne g hg,
      List.count_append]
    have hctx : ((match st with
        | none => ([] : List Link)
        | some tr =>
            [⟨trackCentralId tr, "GENRE:" ++ jsTrim genreName⟩]) :
          List Link).count
          (⟨"GENRE:" ++ jsTrim genreName, "SUBGENRE:" ++ t⟩ : Link) = 0 := by
      cases st with
      | none => rfl
      | some tr =>
        rw [List.count_eq_zero]
        simp only [List.mem_singleton]
        intro hlink
        obtain ⟨r, hr⟩ := trackCentralId_eq tr
        have := congrArg Link.source hlink
        simp [hr] at this
        exact genre_id_ne_track_id _ _ this
    rw [hctx]
    have hinj : Function.Injective
        (fun u => (⟨"GENRE:" ++ jsTrim genreName, "SUBGENRE:" ++ u⟩ : Link)) := by
      intro u v huv
      simp only [Link.mk.injEq] at huv
      exact string_append_right_inj "SUBGENRE:" huv.2
    have := List.count_map_of_injective (β := Link) subs
      (fun u => (⟨"GENRE:" ++ jsTrim genreName, "SUBGENRE:" ++ u⟩ : Link))
      hinj t
    rw [this]
    omega
  · intro ht
    have hnodup :=
      buildGenreFocusGraph_ids_nodup genreName st flag subs hne g hg
    have hmem :=
      (buildGenreFocusGraph_ids genreName st flag subs hne g hg _).mpr
        (Or.inr (Or.inr ⟨t, ht, rfl⟩))
    exact List.count_eq_one_of_mem hnodup hmem
  · rw [buildTrackGenreGraph_links]
    refine List.Nodup.map ?_ (uniqueInOrder_nodup _)
    intro u v huv
    simp only [Link.mk.injEq] at huv
    exact string_append_right_inj "TAG:" huv.2

/-- Witness for C10: the sample build repeats "uk drill" twice in the
resolver output, producing two identical links and one node. -/
theorem c10_link_multiplicity_witness :
    sampleGenreGraph.links.count
        ⟨"GENRE:" ++ jsTrim "grime", "SUBGENRE:" ++ "uk drill"⟩ = 2
      ∧ (sampleGenreGraph.nodes.map (·.id)).count
          ("SUBGENRE:" ++ "uk drill") = 1
      ∧ (buildTrackGenreGraph sampleTrack ["grime", "grime"]).links.Nodup :=
  ⟨(c10_link_multiplicity "grime" (some sampleTrack) true
      ["uk drill", "grime", "uk drill"] sampleGenreGraph (by rfl)
      "uk drill" sampleTrack ["grime", "grime"]).1,
   (c10_link_multiplicity "grime" (some sampleTrack) true
      ["uk drill", "grime", "uk drill"] sampleGenreGraph (by rfl)
      "uk drill" sampleTrack ["grime", "grime"]).2.1 (by decide),
   (c10_link_multiplicity "grime" (some sampleTrack) true
      ["uk drill", "grime", "uk drill"] sampleGenreGraph (by rfl)
      "uk drill" sampleTrack ["grime", "grime"]).2.2⟩
